import Mathlib

/-!
Verification of the sqm-autorate-rust daemon (Lochnair/sqm-autorate-rust).

This file gives a shallow embedding, in Lean, of the pure control logic of
the daemon:

* the rate controller tick (src/ratecontroller.rs, Ratecontroller::run),
* the baseliner update step (src/baseliner.rs, Baseliner::run),
* the reflector selector cycle (src/reflector_selector.rs, ReflectorSelector::run),
* the initial safe-rate ring (src/ratecontroller.rs, generate_initial_speeds),
* the ping sender sequence counter (src/pinger_icmp.rs and
  src/pinger_icmp_ts.rs, sender_loop),
* small helpers (src/utils.rs, Utils::a_else_b).

Modelling conventions:
* Rust f64 values are modelled as rationals (ℚ); f64 rounding error is not
  modelled, and every concrete input used below is exactly representable so
  the modelled arithmetic agrees with the source.
* Rust machine integers are modelled as Nat / Int, with explicit `% 2 ^ w`
  at the points where the source relies on wrap-around (release-mode
  two's-complement semantics).
* Randomness (rand::thread_rng) is modelled by passing the drawn values in
  as explicit arguments: `choice` indices for `SliceRandom::choose`, a list
  of draws for the Fisher-Yates shuffle, and a stream of u64 draws for
  `generate_initial_speeds`.
* Operations that panic in Rust (out-of-range slice indexing) return
  `Option`, with `none` standing for the panic.
-/

namespace SqmAutorate

/-- Configuration values used by the verified components
(src/config.rs, struct Config).  f64 fields are rationals, u32/u8 fields
are naturals. -/
structure Config where
  download_base_kbits : ℚ
  download_min_kbits : ℚ
  upload_base_kbits : ℚ
  upload_min_kbits : ℚ
  download_delay_ms : ℚ
  upload_delay_ms : ℚ
  high_load_level : ℚ
  speed_hist_size : Nat
  num_reflectors : Nat
deriving DecidableEq

/-- src/utils.rs, Utils::a_else_b: `if a > 0.0 { a } else { b }`. -/
def a_else_b (a b : ℚ) : ℚ := if a > 0 then a else b

/-- The sorted copy of a per-reflector delta vector
(src/ratecontroller.rs line 282/283: `sort_by(partial_cmp)`, ascending). -/
def sortedDeltas (l : List ℚ) : List ℚ := List.insertionSort (fun a b => a ≤ b) l

/-- The robust per-tick delay statistic (src/ratecontroller.rs lines
282-286): sort the delta vector ascending, then
`Utils::a_else_b(deltas[2], deltas[0])`.  The source only evaluates this
with at least three deltas; `getD` keeps the model total. -/
def deltaStatOf (l : List ℚ) : ℚ :=
  a_else_b ((sortedDeltas l).getD 2 0) ((sortedDeltas l).getD 0 0)

/-- C8: for every delta vector with at least 3 entries there is an
ascending-sorted rearrangement s of it such that the chosen delta_stat is
the third-smallest element `s.getD 2 0` when that element is strictly
positive, and the smallest element `s.getD 0 0` otherwise. -/
theorem delta_stat_robust_pick (l : List ℚ) (h : 3 ≤ l.length) :
    ∃ s : List ℚ, s.Perm l ∧ s.Sorted (fun a b => a ≤ b) ∧ 3 ≤ s.length ∧
      deltaStatOf l = if 0 < s.getD 2 0 then s.getD 2 0 else s.getD 0 0 := by
  refine ⟨sortedDeltas l, List.perm_insertionSort _ l,
    List.sorted_insertionSort _ l, ?_, ?_⟩
  · calc 3 ≤ l.length := h
      _ = (sortedDeltas l).length := ((List.perm_insertionSort _ l).length_eq).symm
  · rfl

/-- Witness for C8 at the concrete vector [3, -1, 2]. -/
theorem delta_stat_robust_pick_witness :
    3 ≤ ([3, -1, 2] : List ℚ).length ∧
      ∃ s : List ℚ, s.Perm ([3, -1, 2] : List ℚ) ∧ s.Sorted (fun a b => a ≤ b) ∧
        3 ≤ s.length ∧
        deltaStatOf [3, -1, 2] = if 0 < s.getD 2 0 then s.getD 2 0 else s.getD 0 0 :=
  ⟨by decide, delta_stat_robust_pick [3, -1, 2] (by decide)⟩

/-- Rust f64::round — rounding half away from zero — as used on the clamped
rates at src/ratecontroller.rs lines 361-362. -/
def rustRound (q : ℚ) : ℤ := if 0 ≤ q then ⌊q + 1 / 2⌋ else ⌈q - 1 / 2⌉

/-- Maximum of an f64 vector via `iter().max_by(total_cmp).unwrap()`
(src/ratecontroller.rs lines 310-311 and 324-325).  The source only
evaluates it on nonempty vectors; the empty case gets a default. -/
def listMax : List ℚ → ℚ
  | [] => 0
  | a :: rest => rest.foldl max a

/-- `SliceRandom::choose` on the safe-rates ring (src/ratecontroller.rs
lines 334 and 345): `none` on an empty slice, otherwise the element at the
externally supplied random index, reduced modulo the length. -/
def chooseRate (l : List ℚ) (j : Nat) : Option ℚ :=
  match l with
  | [] => none
  | _ :: _ => some (l.getD (j % l.length) 0)

/-- Outcome of the per-direction rate adjustment block: the proposed rate
before the min-rate clamp, the safe-rates ring and the ring index. -/
structure DirResult where
  next_rate : ℚ
  safe_rates : List ℚ
  nrate : Nat
deriving DecidableEq

/-- The probe-up branch of a per-direction adjustment block
(src/ratecontroller.rs lines 305-317 resp. 319-331): guarded by
`0 < delta_stat && delta_stat < probeDelay && highLoad < load`, it stores
`floor(cur * load)` at index nrate of the ring, proposes the ratchet-up
rate with additive term `probeBase * 0.03` and advances nrate modulo
histSize; otherwise the next rate stays at the current rate
(lines 302-303). -/
def probeAdjust (probeDelay probeBase highLoad : ℚ) (histSize : Nat)
    (delta_stat load cur : ℚ) (safe : List ℚ) (nrate : Nat) : DirResult :=
  if 0 < delta_stat ∧ delta_stat < probeDelay ∧ highLoad < load then
    let safeU := safe.set nrate ((⌊cur * load⌋ : ℤ) : ℚ)
    ⟨cur * (1 + 1 / 10 * max (1 - cur / listMax safeU) 0) + probeBase * (3 / 100),
      safeU, (nrate + 1) % histSize⟩
  else ⟨cur, safe, nrate⟩

/-- The back-off branch (src/ratecontroller.rs lines 333-342 resp.
344-353), acting on the state left by the probe-up branch. -/
def backoffAdjust (backoffDelay delta_stat load cur : ℚ) (choice : Nat)
    (st1 : DirResult) : DirResult :=
  if backoffDelay < delta_stat then
    match chooseRate st1.safe_rates choice with
    | some r => ⟨min r (9 / 10 * cur * load), st1.safe_rates, st1.nrate⟩
    | none => ⟨9 / 10 * cur * load, st1.safe_rates, st1.nrate⟩
  else st1

/-- One full per-direction adjustment block, reached when both delta stats
are positive (src/ratecontroller.rs lines 305-353): the probe-up branch
followed by the back-off branch, the latter acting on the ring the former
may have updated.  The two directions instantiate the parameters exactly
as in the source (see downAdjust / upAdjust). -/
def dirAdjust (probeDelay backoffDelay probeBase highLoad : ℚ) (histSize : Nat)
    (delta_stat load cur : ℚ) (safe : List ℚ) (nrate choice : Nat) :
    DirResult :=
  backoffAdjust backoffDelay delta_stat load cur choice
    (probeAdjust probeDelay probeBase highLoad histSize delta_stat load cur safe nrate)

/-- Download-direction adjustment (src/ratecontroller.rs lines 305-317 and
333-342): probe-up threshold and back-off threshold are both
download_delay_ms, and the probe-up additive term uses
download_base_kbits. -/
def downAdjust (cfg : Config) (delta_stat load cur : ℚ) (safe : List ℚ)
    (nrate choice : Nat) : DirResult :=
  dirAdjust cfg.download_delay_ms cfg.download_delay_ms cfg.download_base_kbits
    cfg.high_load_level cfg.speed_hist_size delta_stat load cur safe nrate choice

/-- Upload-direction adjustment (src/ratecontroller.rs lines 319-331 and
344-353).  The source's probe-up branch for the upload direction tests
`up_delta_stat < self.config.download_delay_ms` (line 320) and adds
`self.config.download_base_kbits * 0.03` (line 328); only the back-off
branch uses upload_delay_ms (line 344). -/
def upAdjust (cfg : Config) (delta_stat load cur : ℚ) (safe : List ℚ)
    (nrate choice : Nat) : DirResult :=
  dirAdjust cfg.download_delay_ms cfg.upload_delay_ms cfg.download_base_kbits
    cfg.high_load_level cfg.speed_hist_size delta_stat load cur safe nrate choice

/-- Mutable per-tick state of Ratecontroller::run: current shaped rates,
the two safe-rate rings and their write indices. -/
structure TickState where
  cur_dl_rate : ℚ
  cur_ul_rate : ℚ
  safe_dl_rates : List ℚ
  safe_ul_rates : List ℚ
  nrate_down : Nat
  nrate_up : Nat
deriving DecidableEq

/-- Per-tick inputs of a rate-controller tick: the delta vectors collected
from the reflectors whose data passed the 2-tick freshness window
(src/ratecontroller.rs lines 242-263), the interface byte counters
(previous and current reads, -1 marking a failed read), the two
timestamps used for the utilisation quotient, and the random indices
consumed by the two back-off `choose` calls. -/
structure TickInput where
  down_deltas : List ℚ
  up_deltas : List ℚ
  prev_rx_bytes : ℤ
  prev_tx_bytes : ℤ
  cur_rx_bytes : ℤ
  cur_tx_bytes : ℤ
  t_prev_bytes : ℚ
  now_t : ℚ
  dl_choice : Nat
  ul_choice : Nat
deriving DecidableEq

/-- Download utilisation (src/ratecontroller.rs lines 294-296). -/
def downUtilisation (inp : TickInput) : ℚ :=
  8 / 1000 * ((inp.cur_rx_bytes : ℚ) - (inp.prev_rx_bytes : ℚ)) /
    (inp.now_t - inp.t_prev_bytes)

/-- Upload utilisation (src/ratecontroller.rs lines 298-300). -/
def upUtilisation (inp : TickInput) : ℚ :=
  8 / 1000 * ((inp.cur_tx_bytes : ℚ) - (inp.prev_tx_bytes : ℚ)) /
    (inp.now_t - inp.t_prev_bytes)

/-- rx_load (src/ratecontroller.rs line 297). -/
def rxLoadOf (st : TickState) (inp : TickInput) : ℚ :=
  downUtilisation inp / st.cur_dl_rate

/-- tx_load (src/ratecontroller.rs line 301). -/
def txLoadOf (st : TickState) (inp : TickInput) : ℚ :=
  upUtilisation inp / st.cur_ul_rate

/-- The values of next_dl_rate / next_ul_rate and of the rings and ring
indices as they stand at src/ratecontroller.rs line 360, before the
min-rate clamp. -/
structure PreResult where
  next_dl : ℚ
  next_ul : ℚ
  safe_dl : List ℚ
  safe_ul : List ℚ
  nrate_down : Nat
  nrate_up : Nat
deriving DecidableEq

/-- The rate-change step of one rate-controller tick up to (but not
including) the clamp: src/ratecontroller.rs lines 271-355.  Branches in
source order: unreadable interface stats (line 276, rates held), fewer
than 3 deltas in either direction (line 278, rates set to the configured
minimums), and the main branch guarded by both delta stats being positive
(line 288), which computes the loads and runs the two per-direction
adjustment blocks; when either stat is nonpositive the rates are held. -/
def tickPre (cfg : Config) (st : TickState) (inp : TickInput) : PreResult :=
  if inp.cur_rx_bytes = -1 ∨ inp.cur_tx_bytes = -1 then
    ⟨st.cur_dl_rate, st.cur_ul_rate, st.safe_dl_rates, st.safe_ul_rates,
      st.nrate_down, st.nrate_up⟩
  else if inp.down_deltas.length < 3 ∨ inp.up_deltas.length < 3 then
    ⟨cfg.download_min_kbits, cfg.upload_min_kbits, st.safe_dl_rates,
      st.safe_ul_rates, st.nrate_down, st.nrate_up⟩
  else if 0 < deltaStatOf inp.down_deltas ∧ 0 < deltaStatOf inp.up_deltas then
    let d := downAdjust cfg (deltaStatOf inp.down_deltas) (rxLoadOf st inp)
      st.cur_dl_rate st.safe_dl_rates st.nrate_down inp.dl_choice
    let u := upAdjust cfg (deltaStatOf inp.up_deltas) (txLoadOf st inp)
      st.cur_ul_rate st.safe_ul_rates st.nrate_up inp.ul_choice
    ⟨d.next_rate, u.next_rate, d.safe_rates, u.safe_rates, d.nrate, u.nrate⟩
  else
    ⟨st.cur_dl_rate, st.cur_ul_rate, st.safe_dl_rates, st.safe_ul_rates,
      st.nrate_down, st.nrate_up⟩

/-- Result of a full tick: the pre-clamp proposals (line 360) and the
committed rates after `next_rate.max(min_kbits).round()`
(src/ratecontroller.rs lines 361-362 and 379-380), plus the updated
rings and indices. -/
structure TickResult where
  next_dl_pre : ℚ
  next_ul_pre : ℚ
  cur_dl_rate : ℚ
  cur_ul_rate : ℚ
  safe_dl_rates : List ℚ
  safe_ul_rates : List ℚ
  nrate_down : Nat
  nrate_up : Nat
deriving DecidableEq

/-- One full rate-change step of Ratecontroller::run: the pre-clamp
computation followed by, for each direction,
`next_rate = next_rate.max(min_kbits).round()` and the commit
`cur_rate = next_rate` (src/ratecontroller.rs lines 361-362, 379-380). -/
def rateControlTick (cfg : Config) (st : TickState) (inp : TickInput) :
    TickResult :=
  let p := tickPre cfg st inp
  ⟨p.next_dl, p.next_ul,
    ((rustRound (max p.next_dl cfg.download_min_kbits) : ℤ) : ℚ),
    ((rustRound (max p.next_ul cfg.upload_min_kbits) : ℤ) : ℚ),
    p.safe_dl, p.safe_ul, p.nrate_down, p.nrate_up⟩

/-- Helper: the element the modelled `choose` picks from a nonempty list is
a member of that list. -/
theorem getD_mod_mem (l : List ℚ) (j : Nat) (h : l ≠ []) :
    l.getD (j % l.length) 0 ∈ l := by
  have hlen : 0 < l.length := List.length_pos.mpr h
  have hj : j % l.length < l.length := Nat.mod_lt _ hlen
  rw [List.getD_eq_getElem _ _ hj]
  exact List.getElem_mem hj

/-- Helper: chooseRate returns none exactly on the empty ring. -/
theorem chooseRate_eq_none_iff (l : List ℚ) (j : Nat) :
    chooseRate l j = none ↔ l = [] := by
  cases l <;> simp [chooseRate]

/-- Helper: a rate returned by chooseRate is a member of the ring. -/
theorem chooseRate_mem {l : List ℚ} {j : Nat} {x : ℚ}
    (h : chooseRate l j = some x) : x ∈ l := by
  cases l with
  | nil => simp [chooseRate] at h
  | cons a rest =>
    simp only [chooseRate, Option.some.injEq] at h
    rw [← h]
    exact getD_mod_mem _ j (by simp)

/-- Helper: when the back-off guard holds, the back-off branch proposes
`min(r, 0.9 * cur * load)` for a ring member r, or `0.9 * cur * load` when
the ring is empty; either way the proposal is at most
`0.9 * cur * load`, and the ring is unchanged. -/
theorem backoffAdjust_fires (bd delta load cur : ℚ) (choice : Nat)
    (st1 : DirResult) (h : bd < delta) :
    (((backoffAdjust bd delta load cur choice st1).safe_rates = [] ∧
        (backoffAdjust bd delta load cur choice st1).next_rate =
          9 / 10 * cur * load) ∨
      ∃ x ∈ (backoffAdjust bd delta load cur choice st1).safe_rates,
        (backoffAdjust bd delta load cur choice st1).next_rate =
          min x (9 / 10 * cur * load)) ∧
      (backoffAdjust bd delta load cur choice st1).next_rate ≤
        9 / 10 * cur * load := by
  unfold backoffAdjust
  rw [if_pos h]
  cases hc : chooseRate st1.safe_rates choice with
  | none =>
    exact ⟨Or.inl ⟨(chooseRate_eq_none_iff _ _).mp hc, rfl⟩, le_refl _⟩
  | some r =>
    exact ⟨Or.inr ⟨r, chooseRate_mem hc, rfl⟩, min_le_right _ _⟩

/-- Helper: the same statement for a full per-direction adjustment block:
the ring the choice is drawn from is the one the block ends with. -/
theorem dirAdjust_backoff (pd bd pb hl : ℚ) (hs : Nat) (delta load cur : ℚ)
    (safe : List ℚ) (nrate choice : Nat) (h : bd < delta) :
    (((dirAdjust pd bd pb hl hs delta load cur safe nrate choice).safe_rates = [] ∧
        (dirAdjust pd bd pb hl hs delta load cur safe nrate choice).next_rate =
          9 / 10 * cur * load) ∨
      ∃ x ∈ (dirAdjust pd bd pb hl hs delta load cur safe nrate choice).safe_rates,
        (dirAdjust pd bd pb hl hs delta load cur safe nrate choice).next_rate =
          min x (9 / 10 * cur * load)) ∧
      (dirAdjust pd bd pb hl hs delta load cur safe nrate choice).next_rate ≤
        9 / 10 * cur * load :=
  backoffAdjust_fires bd delta load cur choice _ h

/-- C1 (amended): on a tick with readable interface stats, at least 3
fresh deltas in each direction and both delta stats positive, for each
direction whose delta_stat is STRICTLY above that direction's delay
threshold, the proposed rate before the min-rate clamp equals
`min(r, 0.9 * current_rate * load)` for some member r of that direction's
safe-rates ring as it stands at the choose call, or
`0.9 * current_rate * load` when the ring is empty; in particular it never
exceeds `0.9 * current_rate * load`.  (At exact equality with the
threshold the rule does not fire; see the counterexample.) -/
theorem backoff_rule_strict (cfg : Config) (st : TickState) (inp : TickInput)
    (hrx : inp.cur_rx_bytes ≠ -1) (htx : inp.cur_tx_bytes ≠ -1)
    (hd : 3 ≤ inp.down_deltas.length) (hu : 3 ≤ inp.up_deltas.length)
    (hdpos : 0 < deltaStatOf inp.down_deltas)
    (hupos : 0 < deltaStatOf inp.up_deltas) :
    (cfg.download_delay_ms < deltaStatOf inp.down_deltas →
      (((rateControlTick cfg st inp).safe_dl_rates = [] ∧
          (rateControlTick cfg st inp).next_dl_pre =
            9 / 10 * st.cur_dl_rate * rxLoadOf st inp) ∨
        ∃ x ∈ (rateControlTick cfg st inp).safe_dl_rates,
          (rateControlTick cfg st inp).next_dl_pre =
            min x (9 / 10 * st.cur_dl_rate * rxLoadOf st inp)) ∧
        (rateControlTick cfg st inp).next_dl_pre ≤
          9 / 10 * st.cur_dl_rate * rxLoadOf st inp) ∧
    (cfg.upload_delay_ms < deltaStatOf inp.up_deltas →
      (((rateControlTick cfg st inp).safe_ul_rates = [] ∧
          (rateControlTick cfg st inp).next_ul_pre =
            9 / 10 * st.cur_ul_rate * txLoadOf st inp) ∨
        ∃ x ∈ (rateControlTick cfg st inp).safe_ul_rates,
          (rateControlTick cfg st inp).next_ul_pre =
            min x (9 / 10 * st.cur_ul_rate * txLoadOf st inp)) ∧
        (rateControlTick cfg st inp).next_ul_pre ≤
          9 / 10 * st.cur_ul_rate * txLoadOf st inp) := by
  have hb : ¬ (inp.cur_rx_bytes = -1 ∨ inp.cur_tx_bytes = -1) := by
    intro hc
    cases hc with
    | inl h => exact hrx h
    | inr h => exact htx h
  have hl3 : ¬ (inp.down_deltas.length < 3 ∨ inp.up_deltas.length < 3) := by
    omega
  simp only [rateControlTick, tickPre, if_neg hb, if_neg hl3,
    if_pos (And.intro hdpos hupos)]
  exact ⟨fun hth => dirAdjust_backoff _ _ _ _ _ _ _ _ _ _ _ hth,
    fun hth => dirAdjust_backoff _ _ _ _ _ _ _ _ _ _ _ hth⟩

/-- Concrete configuration for the C1 witness (defaults of src/config.rs:
delay thresholds 15 ms, high_load_level 0.8). -/
def wC1Cfg : Config :=
  { download_base_kbits := 1000, download_min_kbits := 0, upload_base_kbits := 1000,
    upload_min_kbits := 0, download_delay_ms := 15, upload_delay_ms := 15,
    high_load_level := 4/5, speed_hist_size := 2, num_reflectors := 5 }

/-- Concrete state for the C1 witness. -/
def wC1St : TickState := ⟨100, 100, [50, 60], [50, 60], 0, 0⟩

/-- Concrete tick input for the C1 witness: down delta stat 20 > 15,
loads equal to 1. -/
def wC1Inp : TickInput :=
  { down_deltas := [20, 20, 20], up_deltas := [1, 1, 1], prev_rx_bytes := 0,
    prev_tx_bytes := 0, cur_rx_bytes := 12500, cur_tx_bytes := 12500,
    t_prev_bytes := 0, now_t := 1, dl_choice := 0, ul_choice := 0 }

/-- Witness for C1 (amended) at a tick whose down delta stat is 20 ms,
strictly above the 15 ms threshold. -/
theorem backoff_rule_strict_witness :
    (rateControlTick wC1Cfg wC1St wC1Inp).next_dl_pre ≤
      9 / 10 * wC1St.cur_dl_rate * rxLoadOf wC1St wC1Inp :=
  ((backoff_rule_strict wC1Cfg wC1St wC1Inp (by decide) (by decide) (by decide)
      (by decide)
      (by norm_num [wC1Inp, deltaStatOf, sortedDeltas, a_else_b,
        List.insertionSort, List.orderedInsert])
      (by norm_num [wC1Inp, deltaStatOf, sortedDeltas, a_else_b,
        List.insertionSort, List.orderedInsert])).1
    (by norm_num [wC1Cfg, wC1Inp, deltaStatOf, sortedDeltas, a_else_b,
      List.insertionSort, List.orderedInsert])).2

/-- Concrete configuration for the C1 counterexample. -/
def cxC1Cfg : Config :=
  { download_base_kbits := 1000, download_min_kbits := 0, upload_base_kbits := 1000,
    upload_min_kbits := 0, download_delay_ms := 15, upload_delay_ms := 15,
    high_load_level := 4/5, speed_hist_size := 2, num_reflectors := 5 }

/-- Concrete state for the C1 counterexample. -/
def cxC1St : TickState := ⟨100, 100, [50, 60], [50, 60], 0, 0⟩

/-- Concrete tick input for the C1 counterexample: the down delta stat is
exactly 15 ms, equal to the threshold, and both loads are 1. -/
def cxC1Inp : TickInput :=
  { down_deltas := [15, 15, 15], up_deltas := [1, 1, 1], prev_rx_bytes := 0,
    prev_tx_bytes := 0, cur_rx_bytes := 12500, cur_tx_bytes := 12500,
    t_prev_bytes := 0, now_t := 1, dl_choice := 0, ul_choice := 0 }

/-- C1 counterexample: at delta_stat exactly equal to the delay threshold
(guard `down_delta_stat > self.config.download_delay_ms` at
src/ratecontroller.rs line 333 is strict) the back-off rule does NOT
fire: the proposed pre-clamp rate is the held current rate 100, which
exceeds 0.9 × current_rate × load = 90, so it equals no
`min(0.9 × current_rate × load, r)` and not the empty-ring fallback
either. -/
theorem backoff_at_threshold_counterexample :
    deltaStatOf cxC1Inp.down_deltas = cxC1Cfg.download_delay_ms ∧
    (rateControlTick cxC1Cfg cxC1St cxC1Inp).next_dl_pre = 100 ∧
    ¬ ((rateControlTick cxC1Cfg cxC1St cxC1Inp).next_dl_pre ≤
        9 / 10 * cxC1St.cur_dl_rate * rxLoadOf cxC1St cxC1Inp) := by
  norm_num [cxC1Cfg, cxC1St, cxC1Inp, rateControlTick, tickPre, deltaStatOf,
    sortedDeltas, a_else_b, List.insertionSort, List.orderedInsert, downAdjust,
    upAdjust, dirAdjust, probeAdjust, backoffAdjust, chooseRate, listMax,
    rxLoadOf, txLoadOf, downUtilisation, upUtilisation]

/-- Concrete configuration for C2: upload_base_kbits 60000 but
download_base_kbits 0, both delay thresholds at the default 15 ms. -/
def cxC2Cfg : Config :=
  { download_base_kbits := 0, download_min_kbits := 0, upload_base_kbits := 60000,
    upload_min_kbits := 0, download_delay_ms := 15, upload_delay_ms := 15,
    high_load_level := 4/5, speed_hist_size := 2, num_reflectors := 5 }

/-- The probe-up proposal for the upload direction as the spec states it:
`current_rate × (1 + 0.1 × max(0, 1 − current_rate / max(safe_rates))) +
upload_base_kbits × 0.03` — stated from the spec's words for comparison
with the embedded code. -/
def specUploadProbeRate (cfg : Config) (cur maxSafe : ℚ) : ℚ :=
  cur * (1 + 1 / 10 * max (1 - cur / maxSafe) 0) + cfg.upload_base_kbits * (3 / 100)

/-- C2: at the claim's own example (current upload rate 30000, load 0.9,
ring maximum 50000 after the store, upload base rate 60000) the source's
upload probe-up branch proposes 31200, because its additive term uses
download_base_kbits (= 0 here, src/ratecontroller.rs line 328) rather
than upload_base_kbits; the spec's formula gives 33000. -/
theorem upload_probe_uses_download_config :
    (upAdjust cxC2Cfg 2 (9 / 10) 30000 [50000, 0] 1 0).next_rate = 31200 ∧
    listMax (upAdjust cxC2Cfg 2 (9 / 10) 30000 [50000, 0] 1 0).safe_rates = 50000 ∧
    specUploadProbeRate cxC2Cfg 30000 50000 = 33000 ∧
    (31200 : ℚ) ≠ 33000 := by
  norm_num [upAdjust, dirAdjust, probeAdjust, backoffAdjust, cxC2Cfg, chooseRate,
    listMax, specUploadProbeRate]

/-- Helper: rustRound is monotone. -/
theorem rustRound_mono {a b : ℚ} (h : a ≤ b) : rustRound a ≤ rustRound b := by
  unfold rustRound
  by_cases ha : (0 : ℚ) ≤ a
  · rw [if_pos ha, if_pos (ha.trans h)]
    exact Int.floor_mono (by linarith)
  · rw [if_neg ha]
    by_cases hb : (0 : ℚ) ≤ b
    · rw [if_pos hb]
      have h1 : (⌈a - 1 / 2⌉ : ℤ) ≤ 0 := Int.ceil_le.mpr (by
        push_cast
        linarith [lt_of_not_le ha])
      have h2 : (0 : ℤ) ≤ ⌊b + 1 / 2⌋ := Int.le_floor.mpr (by push_cast; linarith)
      omega
    · rw [if_neg hb]
      exact Int.ceil_mono (by linarith)

/-- Helper: rustRound fixes integers. -/
theorem rustRound_intCast (m : ℤ) : rustRound ((m : ℚ)) = m := by
  unfold rustRound
  split
  · rw [Int.floor_eq_iff]
    constructor
    · linarith
    · linarith
  · rw [Int.ceil_eq_iff]
    constructor
    · linarith
    · linarith

/-- C3 (amended): after every rate-controller tick that runs the
rate-change step, on every path, the committed current rate of each
direction equals `round(max(next_rate, min_rate))` — the source rounds
AFTER clamping (src/ratecontroller.rs lines 361-362,
`next_rate.max(min_kbits).round()`), not before — so the committed rate
is always at least `round(min_rate)`, and at least `min_rate` itself
whenever `min_rate` is an integer. -/
theorem rate_floor_amended (cfg : Config) (st : TickState) (inp : TickInput) :
    (rateControlTick cfg st inp).cur_dl_rate =
      ((rustRound (max (rateControlTick cfg st inp).next_dl_pre
        cfg.download_min_kbits) : ℤ) : ℚ) ∧
    (rateControlTick cfg st inp).cur_ul_rate =
      ((rustRound (max (rateControlTick cfg st inp).next_ul_pre
        cfg.upload_min_kbits) : ℤ) : ℚ) ∧
    ((rustRound cfg.download_min_kbits : ℤ) : ℚ) ≤
      (rateControlTick cfg st inp).cur_dl_rate ∧
    ((rustRound cfg.upload_min_kbits : ℤ) : ℚ) ≤
      (rateControlTick cfg st inp).cur_ul_rate ∧
    (∀ m : ℤ, cfg.download_min_kbits = (m : ℚ) →
      cfg.download_min_kbits ≤ (rateControlTick cfg st inp).cur_dl_rate) ∧
    (∀ m : ℤ, cfg.upload_min_kbits = (m : ℚ) →
      cfg.upload_min_kbits ≤ (rateControlTick cfg st inp).cur_ul_rate) := by
  refine ⟨rfl, rfl, ?_, ?_, ?_, ?_⟩
  · exact Int.cast_le.mpr (rustRound_mono (le_max_right _ _))
  · exact Int.cast_le.mpr (rustRound_mono (le_max_right _ _))
  · intro m hm
    calc cfg.download_min_kbits
        = ((rustRound cfg.download_min_kbits : ℤ) : ℚ) := by
          rw [hm, rustRound_intCast]
      _ ≤ (rateControlTick cfg st inp).cur_dl_rate :=
          Int.cast_le.mpr (rustRound_mono (le_max_right _ _))
  · intro m hm
    calc cfg.upload_min_kbits
        = ((rustRound cfg.upload_min_kbits : ℤ) : ℚ) := by
          rw [hm, rustRound_intCast]
      _ ≤ (rateControlTick cfg st inp).cur_ul_rate :=
          Int.cast_le.mpr (rustRound_mono (le_max_right _ _))

/-- Concrete configuration for the C3 witness, with an integral
download_min_kbits of 10. -/
def wC3Cfg : Config :=
  { download_base_kbits := 1000, download_min_kbits := 10, upload_base_kbits := 1000,
    upload_min_kbits := 0, download_delay_ms := 15, upload_delay_ms := 15,
    high_load_level := 4/5, speed_hist_size := 2, num_reflectors := 5 }

/-- Concrete configuration for the C3 counterexample, with the fractional
download_min_kbits 10.4. -/
def cxC3Cfg : Config :=
  { download_base_kbits := 1000, download_min_kbits := 52/5, upload_base_kbits := 1000,
    upload_min_kbits := 0, download_delay_ms := 15, upload_delay_ms := 15,
    high_load_level := 4/5, speed_hist_size := 2, num_reflectors := 5 }

/-- Concrete state for C3. -/
def cxC3St : TickState := ⟨0, 0, [], [], 0, 0⟩

/-- Concrete tick input for C3: readable byte counters but no deltas, so
the tick takes the too-few-deltas path and proposes the minimum rates. -/
def cxC3Inp : TickInput :=
  { down_deltas := [], up_deltas := [], prev_rx_bytes := 0, prev_tx_bytes := 0,
    cur_rx_bytes := 0, cur_tx_bytes := 0, t_prev_bytes := 0, now_t := 1,
    dl_choice := 0, ul_choice := 0 }

/-- Witness for C3 (amended) at an integral minimum rate. -/
theorem rate_floor_amended_witness :
    wC3Cfg.download_min_kbits ≤ (rateControlTick wC3Cfg cxC3St cxC3Inp).cur_dl_rate :=
  (rate_floor_amended wC3Cfg cxC3St cxC3Inp).2.2.2.2.1 10 (by norm_num [wC3Cfg])

/-- C3 counterexample: with download_min_kbits = 10.4 and a tick taking
the too-few-deltas path, the committed download rate is
`round(max(10.4, 10.4)) = 10`, which differs from the claimed
`max(10.4, round(10.4)) = 10.4` and falls below min_rate, refuting both
the claimed clamp formula and the claimed `current_rate ≥ min_rate`
invariant. -/
theorem rate_floor_counterexample :
    (rateControlTick cxC3Cfg cxC3St cxC3Inp).cur_dl_rate = 10 ∧
    (rateControlTick cxC3Cfg cxC3St cxC3Inp).cur_dl_rate ≠
      max cxC3Cfg.download_min_kbits
        ((rustRound (rateControlTick cxC3Cfg cxC3St cxC3Inp).next_dl_pre : ℤ) : ℚ) ∧
    ¬ (cxC3Cfg.download_min_kbits ≤
        (rateControlTick cxC3Cfg cxC3St cxC3Inp).cur_dl_rate) := by
  norm_num [rateControlTick, tickPre, cxC3Cfg, cxC3St, cxC3Inp, rustRound]

/-- Per-reflector OWD statistics (src/baseliner.rs, struct
ReflectorStats).  The Instant is modelled as rational seconds. -/
structure ReflectorStats where
  down_ewma : ℚ
  up_ewma : ℚ
  last_receive_time_s : ℚ
deriving DecidableEq

/-- One OWD sample delivered to the baseliner (the PingReply fields
consumed by Baseliner::run). -/
structure PingReply where
  down_time : ℚ
  up_time : ℚ
  last_receive_time_s : ℚ
deriving DecidableEq

/-- Instant::duration_since in seconds, saturating at zero when the
earlier instant is in fact later. -/
def durationSince (later earlier : ℚ) : ℚ := max (later - earlier) 0

/-- The or_insert / staleness-reset / receive-time-update prefix of one
baseliner iteration (src/baseliner.rs lines 49-89): on first sight of a
reflector both map entries become the sample itself; when the sample is
more than 30 s newer than either entry both entries are reset to the
sample (lines 69-86); in all cases both entries' last_receive_time_s
becomes the sample's (lines 88-89). -/
def baselinerMerged (entry : Option (ReflectorStats × ReflectorStats))
    (td : PingReply) : ReflectorStats × ReflectorStats :=
  let fresh : ReflectorStats := ⟨td.down_time, td.up_time, td.last_receive_time_s⟩
  let b0 := (entry.map Prod.fst).getD fresh
  let r0 := (entry.map Prod.snd).getD fresh
  let br :=
    if 30 < durationSince td.last_receive_time_s b0.last_receive_time_s ∨
        30 < durationSince td.last_receive_time_s r0.last_receive_time_s then
      (fresh, fresh)
    else (b0, r0)
  (⟨br.1.down_ewma, br.1.up_ewma, td.last_receive_time_s⟩,
    ⟨br.2.down_ewma, br.2.up_ewma, td.last_receive_time_s⟩)

/-- Result of one baseliner iteration for the sampled reflector: the two
updated map entries and whether a reselection trigger was sent. -/
structure BaselinerOut where
  baseline : ReflectorStats
  recent : ReflectorStats
  reselect : Bool
deriving DecidableEq

/-- One baseliner iteration for the sampled reflector (src/baseliner.rs
lines 44-123): the merge prefix, then either the anomaly branch for
samples more than 5000 ms above the baseline EWMA (lines 92-104), which
stamps both entries with the process start time, leaves the EWMAs as they
stand and reports a reselection trigger, or the dual-EWMA update with the
baseline pull-down clamp (lines 105-122).  Map entries of other
reflectors are not touched by an iteration. -/
def baselinerStep (slow_factor fast_factor start_time : ℚ)
    (entry : Option (ReflectorStats × ReflectorStats)) (td : PingReply) :
    BaselinerOut :=
  let m := baselinerMerged entry td
  let b2 := m.1
  let r2 := m.2
  if b2.up_ewma + 5000 < td.up_time ∨ b2.down_ewma + 5000 < td.down_time then
    ⟨⟨b2.down_ewma, b2.up_ewma, start_time⟩,
      ⟨r2.down_ewma, r2.up_ewma, start_time⟩, true⟩
  else
    let bd := b2.down_ewma * slow_factor + (1 - slow_factor) * td.down_time
    let bu := b2.up_ewma * slow_factor + (1 - slow_factor) * td.up_time
    let rd := r2.down_ewma * fast_factor + (1 - fast_factor) * td.down_time
    let ru := r2.up_ewma * fast_factor + (1 - fast_factor) * td.up_time
    ⟨⟨if rd < bd then rd else bd, if ru < bu then ru else bu,
        td.last_receive_time_s⟩,
      ⟨rd, ru, td.last_receive_time_s⟩, false⟩

/-- C4: every baseliner processing step of a sample — first insertion,
staleness reset, anomaly marking or normal EWMA update — preserves the
invariant `baseline.down_ewma ≤ recent.down_ewma` and
`baseline.up_ewma ≤ recent.up_ewma` for the sampled reflector (and it
touches no other reflector's entries), so the invariant holds for every
reflector present in both maps after every step. -/
theorem baseliner_preserves_ewma_order (sf ff st0 : ℚ)
    (entry : Option (ReflectorStats × ReflectorStats)) (td : PingReply)
    (h : match entry with
      | none => True
      | some (b, r) => b.down_ewma ≤ r.down_ewma ∧ b.up_ewma ≤ r.up_ewma) :
    (baselinerStep sf ff st0 entry td).baseline.down_ewma ≤
      (baselinerStep sf ff st0 entry td).recent.down_ewma ∧
    (baselinerStep sf ff st0 entry td).baseline.up_ewma ≤
      (baselinerStep sf ff st0 entry td).recent.up_ewma := by
  have hm : (baselinerMerged entry td).1.down_ewma ≤
        (baselinerMerged entry td).2.down_ewma ∧
      (baselinerMerged entry td).1.up_ewma ≤
        (baselinerMerged entry td).2.up_ewma := by
    cases entry with
    | none => simp [baselinerMerged, ite_self]
    | some p =>
      obtain ⟨b, r⟩ := p
      have hbr : b.down_ewma ≤ r.down_ewma ∧ b.up_ewma ≤ r.up_ewma := h
      by_cases hc : 30 < durationSince td.last_receive_time_s b.last_receive_time_s ∨
          30 < durationSince td.last_receive_time_s r.last_receive_time_s
      · simp [baselinerMerged, hc]
      · simpa [baselinerMerged, hc] using hbr
  simp only [baselinerStep]
  split
  · exact hm
  · constructor
    · dsimp only
      split
      · exact le_refl _
      · next hlt => exact le_of_not_lt hlt
    · dsimp only
      split
      · exact le_refl _
      · next hlt => exact le_of_not_lt hlt

/-- Witness for C4 at a concrete ordered entry and sample. -/
theorem baseliner_preserves_ewma_order_witness :
    (baselinerStep (1/2) (1/2) 0 (some (⟨1, 1, 0⟩, ⟨2, 2, 0⟩))
        ⟨3, 3, 1⟩).baseline.down_ewma ≤
      (baselinerStep (1/2) (1/2) 0 (some (⟨1, 1, 0⟩, ⟨2, 2, 0⟩))
        ⟨3, 3, 1⟩).recent.down_ewma ∧
    (baselinerStep (1/2) (1/2) 0 (some (⟨1, 1, 0⟩, ⟨2, 2, 0⟩))
        ⟨3, 3, 1⟩).baseline.up_ewma ≤
      (baselinerStep (1/2) (1/2) 0 (some (⟨1, 1, 0⟩, ⟨2, 2, 0⟩))
        ⟨3, 3, 1⟩).recent.up_ewma :=
  baseliner_preserves_ewma_order (1/2) (1/2) 0
    (some (⟨1, 1, 0⟩, ⟨2, 2, 0⟩)) ⟨3, 3, 1⟩
    ⟨by norm_num, by norm_num⟩

/-- C6: a baseliner step reports a reselection trigger exactly when the
sample exceeds the (post-merge) baseline EWMA by strictly more than
5000 ms in either direction; in that case both entries keep their EWMAs
and get last_receive_time_s set to the process start time; and a sample
whose down_time equals baseline.down_ewma + 5000 exactly (with up_time
not above its threshold) does not trigger and instead gets the normal
fast-EWMA update of the recent entry. -/
theorem baseliner_reselect_iff (sf ff st0 : ℚ)
    (entry : Option (ReflectorStats × ReflectorStats)) (td : PingReply) :
    ((baselinerStep sf ff st0 entry td).reselect = true ↔
      ((baselinerMerged entry td).1.up_ewma + 5000 < td.up_time ∨
        (baselinerMerged entry td).1.down_ewma + 5000 < td.down_time)) ∧
    ((baselinerStep sf ff st0 entry td).reselect = true →
      (baselinerStep sf ff st0 entry td).baseline =
        ⟨(baselinerMerged entry td).1.down_ewma,
          (baselinerMerged entry td).1.up_ewma, st0⟩ ∧
      (baselinerStep sf ff st0 entry td).recent =
        ⟨(baselinerMerged entry td).2.down_ewma,
          (baselinerMerged entry td).2.up_ewma, st0⟩) ∧
    (td.down_time = (baselinerMerged entry td).1.down_ewma + 5000 →
      ¬ ((baselinerMerged entry td).1.up_ewma + 5000 < td.up_time) →
      (baselinerStep sf ff st0 entry td).reselect = false ∧
      (baselinerStep sf ff st0 entry td).recent.down_ewma =
        (baselinerMerged entry td).2.down_ewma * ff +
          (1 - ff) * td.down_time) := by
  by_cases hc : (baselinerMerged entry td).1.up_ewma + 5000 < td.up_time ∨
      (baselinerMerged entry td).1.down_ewma + 5000 < td.down_time
  · refine ⟨?_, ?_, ?_⟩
    · simp [baselinerStep, hc]
    · intro _
      constructor <;> simp [baselinerStep, hc]
    · intro hdeq hup
      exfalso
      rcases hc with h1 | h2
      · exact hup h1
      · rw [hdeq] at h2
        exact lt_irrefl _ h2
  · refine ⟨?_, ?_, ?_⟩
    · simp [baselinerStep, hc]
    · intro habs
      have hf : (baselinerStep sf ff st0 entry td).reselect = false := by
        simp [baselinerStep, hc]
      rw [habs] at hf
      exact absurd hf (by simp)
    · intro _ _
      constructor
      · simp [baselinerStep, hc]
      · simp [baselinerStep, hc]

/-- Witness for C6 at an exact-equality sample: down_time = 5010 =
baseline.down_ewma + 5000 with baseline.down_ewma = 10, up_time below
threshold; no trigger, and the recent EWMA is pulled to 2511. -/
theorem baseliner_reselect_iff_witness :
    (baselinerStep (1/2) (1/2) 0 (some (⟨10, 10, 100⟩, ⟨12, 12, 100⟩))
        ⟨5010, 11, 101⟩).reselect = false ∧
    (baselinerStep (1/2) (1/2) 0 (some (⟨10, 10, 100⟩, ⟨12, 12, 100⟩))
        ⟨5010, 11, 101⟩).recent.down_ewma = 2511 := by
  have h := (baseliner_reselect_iff (1/2) (1/2) 0
      (some (⟨10, 10, 100⟩, ⟨12, 12, 100⟩)) ⟨5010, 11, 101⟩).2.2
    (by norm_num [baselinerMerged, durationSince])
    (by norm_num [baselinerMerged, durationSince])
  refine ⟨h.1, ?_⟩
  rw [h.2]
  norm_num [baselinerMerged, durationSince]

/-- Rust `as u64` on an f64 RTT (src/reflector_selector.rs line 85):
truncation toward zero, negative values to 0, saturating at u64::MAX. -/
def ratToU64 (q : ℚ) : Nat := min (Int.toNat ⌊q⌋) (2 ^ 64 - 1)

/-- HashMap lookup on the owd_recent map, modelled as an association list
from reflector ids to stats. -/
def owdLookup (k : Nat) : List (Nat × ReflectorStats) → Option ReflectorStats
  | [] => none
  | (k2, v) :: rest => if k = k2 then some v else owdLookup k rest

/-- Candidate collection (src/reflector_selector.rs lines 80-94): each
member of next_peers with an owd_recent entry contributes
`(peer, (down_ewma + up_ewma) as u64)`; peers without data are skipped. -/
def selectorCandidates (owd_recent : List (Nat × ReflectorStats))
    (next_peers : List Nat) : List (Nat × Nat) :=
  next_peers.filterMap fun p =>
    match owdLookup p owd_recent with
    | some s => some (p, ratToU64 (s.down_ewma + s.up_ewma))
    | none => none

/-- Stable ascending sort of the candidates by RTT
(src/reflector_selector.rs line 97). -/
def selectorSorted (cands : List (Nat × Nat)) : List (Nat × Nat) :=
  List.insertionSort (fun a b => a.2 ≤ b.2) cands

/-- The truncation step (src/reflector_selector.rs lines 100-102):
`candidates[0..candidate_pool_num - 1].to_vec()` with
`candidate_pool_num = (2 * num_reflectors) as usize`.  num_reflectors is
a u8 so the doubling wraps modulo 256.  The slice indexing panics when
the upper bound exceeds the candidate count, and with a zero pool the
usize subtraction underflows (panic in debug, a huge wrapped bound — and
hence the same slice panic — in release); both panics are modelled as
`none`. -/
def selectorTruncate (num_reflectors : Nat) (cands : List (Nat × Nat)) :
    Option (List (Nat × Nat)) :=
  let pool := 2 * num_reflectors % 256
  if pool = 0 then none
  else if pool - 1 ≤ cands.length then some (List.take (pool - 1) cands)
  else none

/-- Vec::swap of two list positions. -/
def swapList (l : List (Nat × Nat)) (i j : Nat) : List (Nat × Nat) :=
  match l.get? i, l.get? j with
  | some a, some b => (l.set i b).set j a
  | _, _ => l

/-- The Fisher-Yates loop of src/reflector_selector.rs lines 109-112: for
i from len-1 down to 1, swap position i with a drawn position
`j % (i + 1)`; js supplies the successive random draws. -/
def fisherYatesAux (js : List Nat) (k : Nat) (l : List (Nat × Nat)) :
    List (Nat × Nat) :=
  match k with
  | 0 => l
  | Nat.succ k2 =>
    fisherYatesAux js.tail k2 (swapList l (k2 + 1) (js.headD 0 % (k2 + 2)))

/-- The shuffle of the kept candidates. -/
def fisherYates (l : List (Nat × Nat)) (js : List Nat) : List (Nat × Nat) :=
  fisherYatesAux js (l.length - 1) l

/-- The tail of one selector cycle (src/reflector_selector.rs lines
96-127): sort the candidates by RTT, truncate, shuffle, reduce
num_reflectors to the candidate count when that is smaller (the count is
passed through a `as u8` cast, line 114), and take that many peers as the
new peer list; `none` models the truncation panic. -/
def selectorNewPeers (num_reflectors : Nat) (cands : List (Nat × Nat))
    (js : List Nat) : Option (List Nat) :=
  match selectorTruncate num_reflectors (selectorSorted cands) with
  | none => none
  | some kept =>
    let shuffled := fisherYates kept js
    let n := if shuffled.length % 256 < num_reflectors then shuffled.length % 256
      else num_reflectors
    some ((List.take n shuffled).map Prod.fst)

/-- One full selector decision (src/reflector_selector.rs lines 80-127):
candidate collection from next_peers and the owd_recent map, then the
sort / truncate / shuffle / take tail. -/
def selectorCycle (num_reflectors : Nat)
    (owd_recent : List (Nat × ReflectorStats)) (next_peers : List Nat)
    (js : List Nat) : Option (List Nat) :=
  selectorNewPeers num_reflectors (selectorCandidates owd_recent next_peers) js

/-- C10: with 1 ≤ num_reflectors and 2 × num_reflectors < 256, a selector
cycle completes without panicking exactly when at least
2 × num_reflectors − 1 members of next_peers have an owd_recent entry;
with fewer candidates the unconditional slice
`candidates[0..2 * num_reflectors - 1]` panics instead of proceeding
with the shorter list. -/
theorem selector_panics_iff (n : Nat) (owd : List (Nat × ReflectorStats))
    (peers : List Nat) (js : List Nat) (h1 : 1 ≤ n) (h2 : 2 * n < 256) :
    (selectorCycle n owd peers js).isSome ↔
      2 * n - 1 ≤ (selectorCandidates owd peers).length := by
  have hlen : (selectorSorted (selectorCandidates owd peers)).length =
      (selectorCandidates owd peers).length :=
    (List.perm_insertionSort _ _).length_eq
  have hpool : 2 * n % 256 = 2 * n := Nat.mod_eq_of_lt h2
  have hn0 : ¬ (2 * n = 0) := by omega
  simp only [selectorCycle, selectorNewPeers, selectorTruncate, hpool]
  rw [if_neg hn0]
  by_cases hle : 2 * n - 1 ≤ (selectorSorted (selectorCandidates owd peers)).length
  · rw [if_pos hle]
    rw [hlen] at hle
    simpa using hle
  · rw [if_neg hle]
    rw [hlen] at hle
    simpa using hle

/-- Witness for C10: one reflector requested, one candidate with data, so
2 × 1 − 1 = 1 candidate suffices and the cycle completes. -/
theorem selector_panics_iff_witness :
    (selectorCycle 1 [(1, ⟨5, 5, 0⟩)] [1] []).isSome ↔
      2 * 1 - 1 ≤ (selectorCandidates [(1, ⟨5, 5, 0⟩)] [1]).length :=
  selector_panics_iff 1 [(1, ⟨5, 5, 0⟩)] [1] [] (by decide) (by decide)

/-- C5: with num_reflectors = 1 and two candidates (RTTs 10 and 20), the
truncation step keeps only 2 × 1 − 1 = 1 of them — the slice at
src/reflector_selector.rs line 102 is `[0..candidate_pool_num - 1]` —
although the code's own comment (line 99) and the spec call for the
2 × num_reflectors = 2 lowest-RTT candidates. -/
theorem selector_truncation_off_by_one :
    selectorCandidates [(1, ⟨4, 6, 0⟩), (2, ⟨15, 5, 0⟩)] [1, 2] =
      [(1, 10), (2, 20)] ∧
    selectorTruncate 1 (selectorSorted [(1, 10), (2, 20)]) = some [(1, 10)] ∧
    ([(1, 10)] : List (Nat × Nat)).length ≠ 2 := by
  refine ⟨?_, ?_, by decide⟩
  · norm_num [selectorCandidates, List.filterMap, owdLookup, ratToU64]
    constructor <;> rfl
  · norm_num [selectorTruncate, selectorSorted, List.insertionSort,
      List.orderedInsert]

/-- The initial safe-rate ring (src/ratecontroller.rs lines 33-41,
generate_initial_speeds): `size` entries, each
`(next_u64() as f64 * 0.2 + 0.75) * base_speed`, where next_u64 draws a
raw 64-bit integer; `draws` supplies that stream (values in [0, 2^64)).
The f64 conversion's rounding for huge draws is not modelled; the
counterexample below uses a small, exactly representable draw. -/
def generate_initial_speeds (base_speed : ℚ) (size : Nat)
    (draws : Nat → Nat) : List ℚ :=
  (List.range size).map fun i => ((draws i : ℚ) * (2 / 10) + 75 / 100) * base_speed

/-- C7: the ring does have exactly `size` elements, but they are not
samples in [0.75 × base, 0.95 × base]: already the u64 draw 2 gives
(2 × 0.2 + 0.75) × 1000 = 1150 > 0.95 × 1000 = 950, because the code
multiplies the raw 64-bit integer by 0.2 instead of scaling it to the
unit interval first. -/
theorem initial_speeds_out_of_range :
    (generate_initial_speeds 1000 1 fun _ => 2).length = 1 ∧
    generate_initial_speeds 1000 1 (fun _ => 2) = [1150] ∧
    ¬ ((1150 : ℚ) ≤ 95 / 100 * 1000) := by
  norm_num [generate_initial_speeds, List.range_succ]

/-- The sequence bookkeeping at the end of one sender-loop tick
(src/pinger_icmp.rs lines 134-138 and src/pinger_icmp_ts.rs lines
105-109): the u16 `seq += 1` wraps modulo 2^16 (release two's-complement
semantics), and the guard `if seq > u16::MAX { seq = 0 }` can never
fire. -/
def nextSeq (seq : Nat) : Nat :=
  let s := (seq + 1) % 65536
  if s > 65535 then 0 else s

/-- The probes sent in one sender-loop tick (src/pinger_icmp.rs lines
125-130 and src/pinger_icmp_ts.rs lines 96-101): one per reflector, each
carrying the pinger id and the current sequence number. -/
def senderTickPings (reflectors : List Nat) (id seq : Nat) :
    List (Nat × Nat × Nat) :=
  reflectors.map fun r => (r, id, seq)

/-- C9: the sequence counter advances by one modulo 2^16 every tick, from
u16::MAX it advances to 0, and the tick that follows the wrap still
sends exactly one probe per reflector — no tick is skipped. -/
theorem seq_wrap_no_skip (seq id : Nat) (reflectors : List Nat) :
    nextSeq seq = (seq + 1) % 65536 ∧
    nextSeq 65535 = 0 ∧
    (senderTickPings reflectors id (nextSeq 65535)).length =
      reflectors.length := by
  refine ⟨?_, by decide, ?_⟩
  · unfold nextSeq
    rw [if_neg (by omega)]
  · simp [senderTickPings]

end SqmAutorate
